import Mathlib

/-!
Verification of the QuickSync Drives dual-tree state engine and transfer
orchestration layer. The definitions below are a shallow embedding of the
frontend source (App.tsx and the zustand config store): pure functions model
the event handlers, with backend calls represented by explicit result
arguments (Except for fallible calls), and the setTimeout-based deferred
cleanup modelled by an explicit timer list advanced by a tick function.
-/

namespace QuickSync

/-! ## Generic string-keyed association-list helpers

JavaScript plain objects used as maps (iconCache, activeTransfers) are
modelled as association lists; property assignment is replace-or-append,
property deletion is key filtering, property read is first-match lookup. -/

def lookupKV {β : Type} (k : String) : List (String × β) → Option β
  | [] => none
  | (k', v) :: rest => if k' = k then some v else lookupKV k rest

def upsertKV {β : Type} (k : String) (v : β) : List (String × β) → List (String × β)
  | [] => [(k, v)]
  | (k', v') :: rest => if k' = k then (k, v) :: rest else (k', v') :: upsertKV k v rest

def eraseKV {β : Type} (k : String) (l : List (String × β)) : List (String × β) :=
  l.filter (fun kv => decide (kv.1 ≠ k))

/-- Model of JavaScript `String.prototype.includes`: substring containment. -/
def containsSub (l sub : List Char) : Bool :=
  match l with
  | [] => sub.isEmpty
  | _ :: tl => sub.isPrefixOf l || containsSub tl sub

def strIncludes (s t : String) : Bool :=
  containsSub s.data t.data

/-- Model of JavaScript `String.prototype.toLowerCase` (ASCII range). -/
def toLowerStr (s : String) : String :=
  ⟨s.data.map Char.toLower⟩

/-! ## Data model: local file tree (FileTree component) -/

structure FileEntry where
  name : String
  path : String
  is_dir : Bool
  size : Nat
deriving DecidableEq

/-- TreeNode from App.tsx: FileEntry plus lazy-loading fields. `children = none`
means not yet fetched; `some []` means fetched and empty. -/
inductive TreeNode : Type where
  | mk (name : String) (path : String) (is_dir : Bool) (size : Nat)
       (children : Option (List TreeNode)) (expanded : Bool) (loading : Bool)

def TreeNode.name : TreeNode → String
  | .mk n _ _ _ _ _ _ => n

def TreeNode.path : TreeNode → String
  | .mk _ p _ _ _ _ _ => p

def TreeNode.is_dir : TreeNode → Bool
  | .mk _ _ d _ _ _ _ => d

def TreeNode.size : TreeNode → Nat
  | .mk _ _ _ s _ _ _ => s

def TreeNode.children : TreeNode → Option (List TreeNode)
  | .mk _ _ _ _ c _ _ => c

def TreeNode.expanded : TreeNode → Bool
  | .mk _ _ _ _ _ e _ => e

def TreeNode.loading : TreeNode → Bool
  | .mk _ _ _ _ _ _ l => l

/-- The spread `{ ...n, expanded: !n.expanded, loading: !n.expanded && !n.children }`
in toggleFolder. Note an empty children array is truthy in JS, so the
loading test is on the absence of the children field. -/
def flipNode (n : TreeNode) : TreeNode :=
  .mk n.name n.path n.is_dir n.size n.children (!n.expanded) (!n.expanded && n.children.isNone)

/-- The spread `{ ...n, children, loading: false }` in the setChildren closure. -/
def putChildren (cs : List TreeNode) (n : TreeNode) : TreeNode :=
  .mk n.name n.path n.is_dir n.size (some cs) n.expanded false

/-- The spread `{ ...n, children: update(n.children, ...) }` used when descending. -/
def putChildrenKeep (n : TreeNode) (cs : List TreeNode) : TreeNode :=
  .mk n.name n.path n.is_dir n.size (some cs) n.expanded n.loading

/-- `nodes.map((n, i) => i === target ? f n : n)`: the array map with an index
equality guard used by both closures in toggleFolder. -/
def modifyNth {α : Type} (f : α → α) : Nat → List α → List α
  | _, [] => []
  | 0, n :: ns => f n :: ns
  | i + 1, n :: ns => n :: modifyNth f i ns

/-- The `update` closure of toggleFolder: walk the index path; at the final
index flip expanded/loading; at intermediate indices descend only when the
children field is present. -/
def updateToggle : List Nat → List TreeNode → List TreeNode
  | [], nodes => nodes
  | [i], nodes => modifyNth flipNode i nodes
  | i :: j :: rest, nodes =>
      modifyNth (fun n =>
        match n.children with
        | some cs => putChildrenKeep n (updateToggle (j :: rest) cs)
        | none => n) i nodes

/-- The `setChildren` closure of toggleFolder: same walk, but at the final
index install the freshly fetched children and clear loading. -/
def setChildrenAt (newCs : List TreeNode) : List Nat → List TreeNode → List TreeNode
  | [], nodes => nodes
  | [i], nodes => modifyNth (putChildren newCs) i nodes
  | i :: j :: rest, nodes =>
      modifyNth (fun n =>
        match n.children with
        | some cs => putChildrenKeep n (setChildrenAt newCs (j :: rest) cs)
        | none => n) i nodes

/-- Locate the node a renderNodes index path denotes (indices into successive
children sequences), mirroring how renderNodes builds the path it hands to
toggleFolder. -/
def getAt : List Nat → List TreeNode → Option TreeNode
  | [], _ => none
  | [i], nodes => nodes.get? i
  | i :: j :: rest, nodes =>
      match nodes.get? i with
      | some n =>
        match n.children with
        | some cs => getAt (j :: rest) cs
        | none => none
      | none => none

/-- `loadDir`: on success maps each entry to a collapsed, unfetched node; on
failure records the error string and returns the empty list. -/
def entryToNode (e : FileEntry) : TreeNode :=
  .mk e.name e.path e.is_dir e.size none false false

def loadDir : Except String (List FileEntry) → Option String × List TreeNode
  | .ok entries => (none, entries.map entryToNode)
  | .error err => (some err, [])

/-- `toggleFolder(node, idx)`: always applies the expand/collapse flip; issues
the directory-listing fetch (second component true) exactly when the clicked
node snapshot is collapsed and its children field is absent, in which case the
fetched children are installed at the same index path. `fetched` stands for
the value `await loadDir(node.path)` produced. -/
def toggleFolder (tree : List TreeNode) (node : TreeNode) (idx : List Nat)
    (fetched : List TreeNode) : List TreeNode × Bool :=
  let t1 := updateToggle idx tree
  if !node.expanded && node.children.isNone then
    (setChildrenAt fetched idx t1, true)
  else
    (t1, false)

/-! ## Data model: remote tree (RemoteFileTree component) -/

structure RemoteEntry where
  name : String
  is_dir : Bool
  size : Option Nat
  last_modified : Option String
  id : Option String
deriving DecidableEq

structure RState where
  entries : List RemoteEntry
  remotePath : String
  error : Option String
  loading : Bool
deriving DecidableEq

/-- `loadRemoteDir` (FTP branch): clears the error, fetches the listing and
the working directory; on success replaces entries and path; on failure sets
the error string and resets entries to the empty list; loading is cleared in
the finally block. -/
def loadRemoteDirFtp (s : RState) (result : Except String (List RemoteEntry × String)) : RState :=
  match result with
  | .ok fp => { entries := fp.1, remotePath := fp.2, error := none, loading := false }
  | .error e => { entries := [], remotePath := s.remotePath, error := some e, loading := false }

/-- `filteredEntries`: client-side search filter over the current listing. -/
def filteredEntries (entries : List RemoteEntry) (q : String) : List RemoteEntry :=
  entries.filter (fun e => strIncludes (toLowerStr e.name) (toLowerStr q))

/-! ## Cloud navigation stack (loadRemoteDir cloud branch) -/

structure StackEntry where
  id : String
  name : String
deriving DecidableEq

/-- Folder id passed to list_cloud_directory when navigating up: the
second-to-last stack entry when depth exceeds one, else null (root). -/
def cloudGoUpFolderId (stack : List StackEntry) : Option String :=
  if stack.length > 1 then (stack.get? (stack.length - 2)).map StackEntry.id else none

/-- State change of `goUp` in cloud mode: the listing request folder id and
the next path stack (`pathStack.slice(0, -1)`). -/
def cloudGoUp (stack : List StackEntry) : Option String × List StackEntry :=
  (cloudGoUpFolderId stack, stack.dropLast)

/-! ## Drop handling (RemoteFileTree.handleDrop) -/

structure DropFile where
  name : String
  path : Option String
deriving DecidableEq

/-- Messages appended to the transfer log for one dropped file: a missing
source path short-circuits with a single message; otherwise a progress
announcement followed by the awaited backend outcome (result or error). -/
def perFileMsgs (backend : DropFile → Except String String) (f : DropFile) : List String :=
  match f.path with
  | none => ["Cannot upload " ++ f.name ++ " — no path available"]
  | some _ =>
      ("Uploading " ++ f.name ++ "…") ::
      [match backend f with
       | .ok r => r
       | .error e => "Upload error: " ++ e]

/-- The sequential for-loop over the dropped files. -/
def dropMsgs (backend : DropFile → Except String String) : List DropFile → List String
  | [] => []
  | f :: fs => perFileMsgs backend f ++ dropMsgs backend fs

/-- The awaited outcome message a single file contributes to the log. -/
def outcomeMsg (backend : DropFile → Except String String) (f : DropFile) : String :=
  match f.path with
  | none => "Cannot upload " ++ f.name ++ " — no path available"
  | some _ =>
      match backend f with
      | .ok r => r
      | .error e => "Upload error: " ++ e

/-- `handleDrop` of RemoteFileTree: two debug messages, an early return on an
empty batch, otherwise the sequential per-file loop followed by exactly one
`loadRemoteDir()` refresh (second component counts refreshes). -/
def handleDropRemote (files : List DropFile) (backend : DropFile → Except String String) :
    List String × Nat :=
  let pre := ["DEBUG: Remote handleDrop event detected",
              "DEBUG: Remote files count: " ++ toString files.length]
  if files.length = 0 then (pre, 0) else (pre ++ dropMsgs backend files, 1)

/-! ## Connection config store (store/config.ts) -/

structure FtpConnection where
  id : String
  name : String
  host : String
  port : Nat
  username : String
  password : Option String
  secure : Option Bool
deriving DecidableEq

structure CloudConnection where
  id : String
  provider : String
  account_name : String
  token : String
deriving DecidableEq

structure AppConfig where
  ftp_connections : List FtpConnection
  cloud_connections : List CloudConnection
deriving DecidableEq

structure ConfigStore where
  config : AppConfig
  loading : Bool
  error : Option String
deriving DecidableEq

/-- `saveConfig` in the zustand store: the backend save_config call is awaited
inside try; only after it succeeds is the in-memory config replaced. The
catch branch records the error string and leaves config untouched. -/
def saveConfig (s : ConfigStore) (newConfig : AppConfig) (result : Except String Unit) :
    ConfigStore :=
  match result with
  | .ok _ => { s with config := newConfig }
  | .error e => { s with error := some e }

/-! ## Native drag-drop routing (tauri drag-drop listener in App) -/

/-- The connection-state test of the drag-drop listener:
substring checks on the free-text status plus a selected connection. -/
def isRemoteConnected (status : String) (ftp : Option FtpConnection)
    (cloud : Option CloudConnection) : Bool :=
  (strIncludes status "connected" || strIncludes status "Connected") &&
    (ftp.isSome || cloud.isSome)

inductive DropOp : Type where
  | uploadCloud
  | uploadFtp
  | copyToLocal
deriving DecidableEq

/-- Backend operation the native drag-drop listener picks for every file of a
batch: upload when the app considers a remote connection active (cloud takes
precedence), local copy otherwise. The receiving pane is not consulted. -/
def nativeDropRoute (status : String) (ftp : Option FtpConnection)
    (cloud : Option CloudConnection) : DropOp :=
  if isRemoteConnected status ftp cloud then
    if cloud.isSome then DropOp.uploadCloud else DropOp.uploadFtp
  else
    DropOp.copyToLocal

/-- Operation chosen by RemoteFileTree.handleDrop (the remote pane), which is
mounted only while a connection is active: always an upload. -/
def remotePaneDropOp (cloudConfig : Option CloudConnection) : DropOp :=
  if cloudConfig.isSome then DropOp.uploadCloud else DropOp.uploadFtp

/-! ## Transfer progress orchestration (transfer-progress listener in App) -/

structure TransferProgress where
  transfer_id : String
  filename : String
  progress : Nat
  total : Nat
  status : String
deriving DecidableEq

/-- Live transfer map, pane refresh token, and the pending setTimeout
removals (transfer id, remaining time-units before firing). -/
structure OrchState where
  transfers : List (String × TransferProgress)
  refreshKey : Nat
  timers : List (String × Nat)
deriving DecidableEq

/-- The transfer-progress listener: every event upserts its record keyed by
transfer_id; a complete event additionally bumps the refresh token and
schedules an unconditional removal of that id 5 time-units later. -/
def recv (p : TransferProgress) (s : OrchState) : OrchState :=
  if p.status = "complete" then
    { transfers := upsertKV p.transfer_id p s.transfers,
      refreshKey := s.refreshKey + 1,
      timers := s.timers ++ [(p.transfer_id, 5)] }
  else
    { s with transfers := upsertKV p.transfer_id p s.transfers }

/-- Advance time by one unit: decrement every pending timer; timers reaching
zero fire, deleting their transfer id from the live map. -/
def tick (s : OrchState) : OrchState :=
  let dec := s.timers.map (fun t => (t.1, t.2 - 1))
  let fired := dec.filter (fun t => decide (t.2 = 0))
  { transfers := fired.foldl (fun m t => eraseKV t.1 m) s.transfers,
    refreshKey := s.refreshKey,
    timers := dec.filter (fun t => decide (t.2 ≠ 0)) }

def tickN : Nat → OrchState → OrchState
  | 0, s => s
  | n + 1, s => tickN n (tick s)

/-! ## Icon resolution cache (getFileIcon) -/

/-- The characters after the last dot of the name, when a dot is present. -/
def afterLastDot : List Char → Option (List Char)
  | [] => none
  | c :: rest =>
    match afterLastDot rest with
    | some s => some s
    | none => if c = '.' then some rest else none

/-- The extension extracted by the regex match on a trailing dot-component:
present exactly when the name has a dot with a nonempty remainder, lowercased. -/
def extOf (filename : String) : Option String :=
  match afterLastDot filename.data with
  | some s => if s.isEmpty then none else some ⟨s.map Char.toLower⟩
  | none => none

/-- Result value stored in the cache: the fetched icon on success, the empty
string sentinel on failure. -/
def iconResult : Except Unit String → String
  | .ok v => v
  | .error _ => ""

/-- `getFileIcon`: returns (value, cache, whether a backend lookup was
issued). A cached extension (including the failure sentinel) is answered from
the cache without a call; a miss issues the lookup and stores the result. -/
def getFileIcon (cache : List (String × String)) (filename : String)
    (backendResult : Except Unit String) : Option String × List (String × String) × Bool :=
  match extOf filename with
  | none => (none, cache, false)
  | some ext =>
    match lookupKV ext cache with
    | some v => (some v, cache, false)
    | none =>
      match backendResult with
      | .ok icon => (some icon, upsertKV ext icon cache, true)
      | .error _ => (none, upsertKV ext "" cache, true)

/-! ## Concrete sample data used by counterexamples and witnesses -/

def sampleRemoteEntry : RemoteEntry :=
  ⟨"report.pdf", false, some 1024, none, none⟩

def exRemoteEntries : List RemoteEntry :=
  [⟨"Readme.txt", false, none, none, none⟩,
   ⟨"report.PDF", false, none, none, none⟩,
   ⟨"image.png", false, none, none, none⟩]

def exDropFiles : List DropFile :=
  [⟨"a.txt", some "/tmp/a.txt"⟩, ⟨"b.txt", some "/tmp/b.txt"⟩, ⟨"c.txt", some "/tmp/c.txt"⟩]

def exNode : TreeNode := .mk "sub" "/home/user/sub" true 0 none false false

def exFetched : List TreeNode :=
  [entryToNode ⟨"a.txt", "/home/user/sub/a.txt", false, 5⟩]

def exFtpConn : FtpConnection :=
  ⟨"1", "My Server", "ftp.example.com", 21, "admin", none, none⟩

/-- Backend stub for the witness drop batch: the second file fails. -/
def exBackend : DropFile → Except String String :=
  fun f => if f.name = "b.txt" then Except.error "Connection reset" else Except.ok "Transfer complete"

def exTree : List TreeNode := [exNode]

def wState : OrchState := ⟨[], 0, []⟩

def wP : TransferProgress := ⟨"t1", "file.bin", 100, 100, "complete"⟩

def wQ : TransferProgress := ⟨"t2", "other.bin", 5, 10, "in-progress"⟩

/-! # Theorems -/

/-! ## Tree toggle helper lemmas -/

theorem get?_modifyNth {α : Type} (f : α → α) :
    ∀ (i : Nat) (l : List α), (modifyNth f i l).get? i = (l.get? i).map f
  | _, [] => by simp [modifyNth]
  | 0, _ :: _ => by simp [modifyNth]
  | i + 1, _ :: ns => by simpa [modifyNth] using get?_modifyNth f i ns

theorem get?_modifyNth_ne {α : Type} (f : α → α) :
    ∀ (i j : Nat) (l : List α), i ≠ j → (modifyNth f i l).get? j = l.get? j
  | _, _, [], _ => by simp [modifyNth]
  | 0, 0, _ :: _, h => absurd rfl h
  | 0, _ + 1, _ :: _, _ => by simp [modifyNth]
  | _ + 1, 0, _ :: _, _ => by simp [modifyNth]
  | i + 1, j + 1, _ :: ns, h => by
      simpa [modifyNth] using get?_modifyNth_ne f i j ns (fun hij => h (by omega))

theorem putChildren_children (cs : List TreeNode) (n : TreeNode) :
    (putChildren cs n).children = some cs := by
  cases n
  rfl

theorem putChildrenKeep_children (n : TreeNode) (cs : List TreeNode) :
    (putChildrenKeep n cs).children = some cs := by
  cases n
  rfl

/-- Applying the toggle flip and then installing fetched children at the same
index path updates exactly the addressed node: it ends expanded-flipped, not
loading, with the fetched children present. -/
theorem getAt_toggle_then_set :
    ∀ (idx : List Nat) (tree : List TreeNode) (node : TreeNode) (cs : List TreeNode),
      getAt idx tree = some node →
      getAt idx (setChildrenAt cs idx (updateToggle idx tree)) =
        some (putChildren cs (flipNode node))
  | [], _, _, _, h => by simp [getAt] at h
  | [i], tree, node, cs, h => by
      simp only [getAt] at h ⊢
      simp only [updateToggle, setChildrenAt]
      rw [get?_modifyNth, get?_modifyNth, h]
      rfl
  | i :: j :: rest, tree, node, cs, h => by
      simp only [getAt] at h ⊢
      cases hg : tree.get? i with
      | none => rw [hg] at h; simp at h
      | some n =>
        rw [hg] at h
        obtain ⟨nm, p, d, sz, ch, e, lo⟩ := n
        dsimp only [TreeNode.children] at h
        cases ch with
        | none => simp at h
        | some cs2 =>
          dsimp only at h
          simp only [updateToggle, setChildrenAt]
          rw [get?_modifyNth, get?_modifyNth, hg]
          simp only [Option.map_some']
          dsimp only [TreeNode.children, putChildrenKeep, TreeNode.name, TreeNode.path,
            TreeNode.is_dir, TreeNode.size, TreeNode.expanded, TreeNode.loading]
          exact getAt_toggle_then_set (j :: rest) cs2 node cs h

/-- The fetch decision of toggleFolder is exactly the test on the clicked
node snapshot: collapsed with an absent children field. -/
theorem toggleFolder_snd (tree : List TreeNode) (node : TreeNode) (idx : List Nat)
    (fetched : List TreeNode) :
    (toggleFolder tree node idx fetched).2 = (!node.expanded && node.children.isNone) := by
  simp only [toggleFolder]
  cases h : (!node.expanded && node.children.isNone) <;> simp [h]

theorem toggleFolder_fst_fetch (tree : List TreeNode) (node : TreeNode) (idx : List Nat)
    (fetched : List TreeNode) (he : node.expanded = false) (hc : node.children = none) :
    (toggleFolder tree node idx fetched).1 = setChildrenAt fetched idx (updateToggle idx tree) := by
  simp [toggleFolder, he, hc]

/-- Claim C1: toggling a directory node whose children field is present
(already fetched, possibly empty) issues no directory-listing fetch, and
collapsing never fetches; the fetch is issued exactly on an expansion whose
children field is still absent, after which the node carries the fetched
children, so every subsequent toggle of it issues no fetch. -/
theorem toggle_fetch_once (tree : List TreeNode) (node : TreeNode) (idx : List Nat)
    (fetched : List TreeNode) :
    ((toggleFolder tree node idx fetched).2 = (!node.expanded && node.children.isNone))
    ∧ (node.children.isSome = true → (toggleFolder tree node idx fetched).2 = false)
    ∧ (node.expanded = true → (toggleFolder tree node idx fetched).2 = false)
    ∧ (node.expanded = false → node.children = none → getAt idx tree = some node →
        (toggleFolder tree node idx fetched).2 = true
        ∧ getAt idx (toggleFolder tree node idx fetched).1
            = some (putChildren fetched (flipNode node))
        ∧ ∀ (tree2 : List TreeNode) (idx2 : List Nat) (fetched2 : List TreeNode),
            (toggleFolder tree2 (putChildren fetched (flipNode node)) idx2 fetched2).2 = false) := by
  have hsnd := toggleFolder_snd tree node idx fetched
  refine ⟨hsnd, ?_, ?_, ?_⟩
  · intro h
    obtain ⟨v, hv⟩ := Option.isSome_iff_exists.mp h
    rw [hsnd, hv]
    simp
  · intro h
    rw [hsnd, h]
    rfl
  · intro he hc hg
    refine ⟨by rw [hsnd, he, hc]; rfl, ?_, ?_⟩
    · rw [toggleFolder_fst_fetch tree node idx fetched he hc]
      exact getAt_toggle_then_set idx tree node fetched hg
    · intro tree2 idx2 fetched2
      rw [toggleFolder_snd, putChildren_children]
      simp

/-- Witness for C1: first expansion of a concrete unfetched directory node
issues the fetch and materializes its children at the addressed position. -/
theorem toggle_fetch_once_witness :
    (toggleFolder exTree exNode [0] exFetched).2 = true
    ∧ getAt [0] (toggleFolder exTree exNode [0] exFetched).1
        = some (putChildren exFetched (flipNode exNode))
    ∧ (toggleFolder exTree (putChildren exFetched (flipNode exNode)) [0] exFetched).2 = false := by
  have h := (toggle_fetch_once exTree exNode [0] exFetched).2.2.2 rfl rfl rfl
  exact ⟨h.1, h.2.1, h.2.2 exTree [0] exFetched⟩

/-- Claim C9: when the first-expand fetch of a local node fails, loadDir
reports the error and hands back the empty list, so the node ends with
children present-but-empty (displayed as an empty directory), and no later
toggle of that node issues a fetch again. -/
theorem failed_expand_children_empty (tree : List TreeNode) (node : TreeNode) (idx : List Nat)
    (msg : String) (hg : getAt idx tree = some node) (he : node.expanded = false)
    (hc : node.children = none) :
    (loadDir (.error msg)).1 = some msg
    ∧ getAt idx (toggleFolder tree node idx (loadDir (.error msg)).2).1
        = some (putChildren [] (flipNode node))
    ∧ (putChildren [] (flipNode node)).children = some []
    ∧ ∀ (tree2 : List TreeNode) (idx2 : List Nat) (fetched2 : List TreeNode),
        (toggleFolder tree2 (putChildren [] (flipNode node)) idx2 fetched2).2 = false := by
  refine ⟨rfl, ?_, putChildren_children [] (flipNode node), ?_⟩
  · rw [toggleFolder_fst_fetch tree node idx _ he hc]
    exact getAt_toggle_then_set idx tree node [] hg
  · intro tree2 idx2 fetched2
    rw [toggleFolder_snd, putChildren_children]
    simp

/-- Witness for C9 at a concrete one-node tree with a failing listing call. -/
theorem failed_expand_children_empty_witness :
    getAt [0] (toggleFolder exTree exNode [0] (loadDir (.error "Access denied")).2).1
      = some (putChildren [] (flipNode exNode))
    ∧ (putChildren [] (flipNode exNode)).children = some [] := by
  have h := failed_expand_children_empty exTree exNode [0] "Access denied" rfl rfl rfl
  exact ⟨h.2.1, h.2.2.1⟩

/-- Claim C10: saveConfig is atomic with respect to the in-memory
configuration: if the backend save_config call fails, the config field keeps
its prior value and only the error string is set (loading also unchanged);
the config is replaced by the new configuration only when the call succeeds. -/
theorem saveConfig_atomic (s : ConfigStore) (nc : AppConfig) (msg : String) :
    (saveConfig s nc (.error msg)).config = s.config
    ∧ (saveConfig s nc (.error msg)).error = some msg
    ∧ (saveConfig s nc (.error msg)).loading = s.loading
    ∧ (saveConfig s nc (.ok ())).config = nc :=
  ⟨rfl, rfl, rfl, rfl⟩

/-- Claim C6: cloud goUp pops at most one element and never underflows: the
next stack always has length one less (zero stays zero); from depth 1 it
returns to the root (empty stack, null folder id fetched); invoked again at
the root it stays at the empty stack with a null folder id. -/
theorem cloudGoUp_no_underflow (stack : List StackEntry) :
    (cloudGoUp stack).2.length = stack.length - 1
    ∧ (stack.length = 1 → cloudGoUp stack = (none, []))
    ∧ (stack = [] → cloudGoUp stack = (none, [])) := by
  refine ⟨by simp [cloudGoUp], ?_, ?_⟩
  · intro h
    obtain ⟨e, rfl⟩ := List.length_eq_one.mp h
    rfl
  · rintro rfl
    rfl

/-- Witness for C6 at a depth-1 stack and at the empty (root) stack. -/
theorem cloudGoUp_no_underflow_witness :
    cloudGoUp [⟨"f1", "Docs"⟩] = (none, []) ∧ cloudGoUp ([] : List StackEntry) = (none, []) :=
  ⟨(cloudGoUp_no_underflow [⟨"f1", "Docs"⟩]).2.1 rfl,
   (cloudGoUp_no_underflow []).2.2 rfl⟩

/-- Counterexample to claim C2 as stated: a failing remote re-list does not
leave the previously materialized entry list unchanged — it replaces it with
the empty list. -/
theorem remote_fetch_failure_discards :
    (loadRemoteDirFtp ⟨[sampleRemoteEntry], "/", none, false⟩
        (Except.error "Connection timed out")).entries ≠ [sampleRemoteEntry] := by
  decide

/-- Claim C2 amended: a directory-listing fetch failure sets the visible
error string for that tree view, but clears the fetched level instead of
preserving it: the remote entry list is replaced by the empty list, and the
local loadDir used for a level refresh likewise reports the error together
with an empty replacement list. -/
theorem fetch_failure_sets_error_and_clears (s : RState) (msg : String) :
    (loadRemoteDirFtp s (.error msg)).error = some msg
    ∧ (loadRemoteDirFtp s (.error msg)).entries = []
    ∧ (loadRemoteDirFtp s (.error msg)).remotePath = s.remotePath
    ∧ (loadDir (.error msg)).1 = some msg
    ∧ (loadDir (.error msg)).2 = [] :=
  ⟨rfl, rfl, rfl, rfl, rfl⟩

/-! ## Drop batch lemmas and claims C3, C4 -/

/-- Each dropped file contributes its awaited outcome to the log in drop
order (the outcomes form an in-order sublist of the batch log). -/
theorem outcome_sublist (backend : DropFile → Except String String) :
    ∀ (files : List DropFile),
      List.Sublist (files.map (outcomeMsg backend)) (dropMsgs backend files)
  | [] => by simp [dropMsgs]
  | f :: fs => by
      cases hp : f.path with
      | none =>
        simp only [List.map_cons, dropMsgs, perFileMsgs, outcomeMsg, hp, List.cons_append,
          List.nil_append]
        exact List.Sublist.cons₂ _ (outcome_sublist backend fs)
      | some p =>
        simp only [List.map_cons, dropMsgs, perFileMsgs, outcomeMsg, hp, List.cons_append,
          List.nil_append]
        exact List.Sublist.cons _ (List.Sublist.cons₂ _ (outcome_sublist backend fs))

theorem dropMsgs_length (backend : DropFile → Except String String) :
    ∀ (files : List DropFile),
      (dropMsgs backend files).length
        = (files.map (fun f => if f.path.isSome then 2 else 1)).sum
  | [] => rfl
  | f :: fs => by
      cases hp : f.path <;>
        simp [dropMsgs, perFileMsgs, hp, dropMsgs_length backend fs] <;> omega

/-- Counterexample to claim C3 as stated: a 3-file drop batch does not leave
the transfer log with exactly 3 new entries — the handler also appends two
debug lines and one progress announcement per file. -/
theorem drop_batch_log_count_cex :
    ((handleDropRemote exDropFiles (fun _ => Except.ok "Transfer complete")).1).length ≠ 3 := by
  decide

/-- Claim C3 amended: the dropped files are processed sequentially in drop
order, a failure on one file never prevents the next (every file contributes
exactly one awaited outcome entry, and these appear in drop order); the full
log additionally carries two debug lines for the batch plus one progress
announcement per file with a source path; and a nonempty batch ends with
exactly one refresh of the pane, regardless of the per-file outcomes. -/
theorem drop_batch_sequential (files : List DropFile)
    (backend : DropFile → Except String String) (h : files ≠ []) :
    (handleDropRemote files backend).2 = 1
    ∧ List.Sublist (files.map (outcomeMsg backend)) (handleDropRemote files backend).1
    ∧ (handleDropRemote files backend).1.length
        = 2 + (files.map (fun f => if f.path.isSome then 2 else 1)).sum := by
  have hlen : ¬ files.length = 0 := fun hl => h (List.length_eq_zero.mp hl)
  simp only [handleDropRemote, if_neg hlen]
  refine ⟨trivial, ?_, ?_⟩
  · exact (outcome_sublist backend files).trans (List.sublist_append_right _ _)
  · simp [dropMsgs_length backend files]
    omega

/-- Witness for amended C3: a 3-file batch whose second file fails. -/
theorem drop_batch_sequential_witness :
    (handleDropRemote exDropFiles exBackend).2 = 1
    ∧ List.Sublist (exDropFiles.map (outcomeMsg exBackend))
        (handleDropRemote exDropFiles exBackend).1
    ∧ (handleDropRemote exDropFiles exBackend).1.length
        = 2 + (exDropFiles.map (fun f => if f.path.isSome then 2 else 1)).sum :=
  drop_batch_sequential exDropFiles exBackend (by decide)

/-- Claim C4 (code bug): a drop dispatched while no remote connection is
active must route every file to the local copy operation. The code violates
this in a reachable state: with an FTP connection merely selected in the
sidebar and the status still at its initial text, the substring test of the
listener already counts the app as connected — the literal status Not
Connected contains the word Connected — so the native drag-drop listener
routes the dropped files to the upload operation, contradicting the comment
above the listener in the source, which promises local copy whenever no
remote connection is active. This theorem evaluates the code at that failing
input. -/
theorem drop_routing_bug :
    strIncludes "Not Connected" "Connected" = true
    ∧ isRemoteConnected "Not Connected" (some exFtpConn) none = true
    ∧ nativeDropRoute "Not Connected" (some exFtpConn) none = DropOp.uploadFtp
    ∧ nativeDropRoute "Not Connected" (some exFtpConn) none ≠ DropOp.copyToLocal
    ∧ nativeDropRoute "Not Connected" none none = DropOp.copyToLocal := by
  decide

/-- Claim C7: the search filter is a pure, order-preserving view of the
materialized entry list (a sublist of it, membership characterized by the
case-insensitive substring test), and on the spec example with query re it
yields exactly the Readme.txt and report.PDF entries in original order. -/
theorem filteredEntries_view (entries : List RemoteEntry) (q : String) :
    List.Sublist (filteredEntries entries q) entries
    ∧ (∀ e : RemoteEntry, e ∈ filteredEntries entries q ↔
        e ∈ entries ∧ strIncludes (toLowerStr e.name) (toLowerStr q) = true)
    ∧ (filteredEntries exRemoteEntries "re").map RemoteEntry.name
        = ["Readme.txt", "report.PDF"] := by
  refine ⟨List.filter_sublist _, ?_, by decide⟩
  intro e
  exact List.mem_filter

/-! ## Key-value helper lemmas (icon cache and transfer map) -/

theorem lookupKV_upsertKV_self {β : Type} (k : String) (v : β) :
    ∀ (l : List (String × β)), lookupKV k (upsertKV k v l) = some v
  | [] => by simp [upsertKV, lookupKV]
  | (k', v') :: rest => by
      by_cases hk : k' = k
      · simp [upsertKV, hk, lookupKV]
      · simp [upsertKV, hk, lookupKV, lookupKV_upsertKV_self k v rest]

theorem lookupKV_filter_none {β : Type} (k : String) (p : String × β → Bool) :
    ∀ (l : List (String × β)), lookupKV k l = none → lookupKV k (l.filter p) = none
  | [], _ => by simp [lookupKV]
  | (k', v) :: rest, h => by
      have hk : ¬ (k' = k) := by
        intro hkk
        simp [lookupKV, hkk] at h
      have hrest : lookupKV k rest = none := by
        simpa [lookupKV, hk] using h
      by_cases hp : p (k', v) = true
      · simp only [List.filter_cons, hp, if_true, lookupKV, if_neg hk]
        exact lookupKV_filter_none k p rest hrest
      · simp only [List.filter_cons, hp]
        simp only [Bool.false_eq_true, if_false]
        exact lookupKV_filter_none k p rest hrest

theorem lookupKV_eraseKV_self {β : Type} (k : String) :
    ∀ (l : List (String × β)), lookupKV k (eraseKV k l) = none
  | [] => rfl
  | (k', v) :: rest => by
      by_cases hk : k' = k
      · simpa [eraseKV, List.filter_cons, hk] using lookupKV_eraseKV_self k rest
      · simpa [eraseKV, List.filter_cons, hk, lookupKV] using lookupKV_eraseKV_self k rest

theorem lookupKV_eraseKV_none {β : Type} (k k' : String) (l : List (String × β))
    (h : lookupKV k l = none) : lookupKV k (eraseKV k' l) = none :=
  lookupKV_filter_none k _ l h

/-! ## Claim C8: icon resolution cache -/

/-- Claim C8: the icon cache issues at most one backend lookup per extension:
a cached extension (including the failure sentinel stored by a failed first
lookup) is answered without a backend call and without touching the cache; a
cache miss issues exactly one lookup, stores its result (success value or the
failure sentinel) permanently, and every subsequent resolve for that
extension issues no further call. -/
theorem icon_cache_once (cache : List (String × String)) (fn : String) (r : Except Unit String) :
    (∀ (ext v : String), extOf fn = some ext → lookupKV ext cache = some v →
        getFileIcon cache fn r = (some v, cache, false))
    ∧ (∀ ext : String, extOf fn = some ext → lookupKV ext cache = none →
        (getFileIcon cache fn r).2.2 = true
        ∧ lookupKV ext (getFileIcon cache fn r).2.1 = some (iconResult r)
        ∧ ∀ r2 : Except Unit String,
            (getFileIcon (getFileIcon cache fn r).2.1 fn r2).2.2 = false) := by
  constructor
  · intro ext v hext hcv
    simp [getFileIcon, hext, hcv]
  · intro ext hext hcn
    cases r with
    | ok icon =>
      refine ⟨by simp [getFileIcon, hext, hcn], ?_, ?_⟩
      · simp [getFileIcon, hext, hcn, iconResult, lookupKV_upsertKV_self]
      · intro r2
        simp [getFileIcon, hext, hcn, lookupKV_upsertKV_self]
    | error u =>
      refine ⟨by simp [getFileIcon, hext, hcn], ?_, ?_⟩
      · simp [getFileIcon, hext, hcn, iconResult, lookupKV_upsertKV_self]
      · intro r2
        simp [getFileIcon, hext, hcn, lookupKV_upsertKV_self]

/-- Witness for C8: a failed first lookup for pdf stores the sentinel and a
second resolve issues no backend call. -/
theorem icon_cache_once_witness :
    (getFileIcon [] "Report.PDF" (Except.error ())).2.2 = true
    ∧ lookupKV "pdf" (getFileIcon [] "Report.PDF" (Except.error ())).2.1
        = some (iconResult (Except.error ()))
    ∧ (getFileIcon (getFileIcon [] "Report.PDF" (Except.error ())).2.1 "Report.PDF"
        (Except.ok "data")).2.2 = false := by
  have h := (icon_cache_once [] "Report.PDF" (Except.error ())).2 "pdf" (by decide) rfl
  exact ⟨h.1, h.2.1, h.2.2 (Except.ok "data")⟩

/-! ## Claim C5: transfer progress lifecycle -/

theorem foldl_erase_none {β : Type} (k : String) :
    ∀ (l : List (String × Nat)) (m : List (String × β)), lookupKV k m = none →
      lookupKV k (l.foldl (fun m t => eraseKV t.1 m) m) = none
  | [], _, h => h
  | t :: rest, m, h => by
      simp only [List.foldl_cons]
      exact foldl_erase_none k rest _ (lookupKV_eraseKV_none k t.1 m h)

theorem foldl_erase_mem {β : Type} (k : String) :
    ∀ (l : List (String × Nat)) (m : List (String × β)) (x : Nat), (k, x) ∈ l →
      lookupKV k (l.foldl (fun m t => eraseKV t.1 m) m) = none
  | [], _, _, h => absurd h (List.not_mem_nil _)
  | t :: rest, m, x, h => by
      simp only [List.foldl_cons]
      rcases List.mem_cons.mp h with heq | hmem
      · exact foldl_erase_none k rest _ (by rw [← heq]; exact lookupKV_eraseKV_self k m)
      · exact foldl_erase_mem k rest _ x hmem

theorem tick_lookup_none (s : OrchState) (k : String) (h : lookupKV k s.transfers = none) :
    lookupKV k (tick s).transfers = none := by
  simp only [tick]
  exact foldl_erase_none k _ _ h

theorem tick_fires (s : OrchState) (k : String) (h : (k, 1) ∈ s.timers) :
    lookupKV k (tick s).transfers = none := by
  simp only [tick]
  apply foldl_erase_mem k _ _ 0
  apply List.mem_filter.mpr
  refine ⟨List.mem_map.mpr ⟨(k, 1), h, rfl⟩, by simp⟩

theorem tick_timer_dec (s : OrchState) (k : String) (j : Nat) (h : (k, j + 2) ∈ s.timers) :
    (k, j + 1) ∈ (tick s).timers := by
  simp only [tick]
  apply List.mem_filter.mpr
  refine ⟨List.mem_map.mpr ⟨(k, j + 2), h, rfl⟩, by simp⟩

theorem tickN_lookup_none : ∀ (n : Nat) (s : OrchState) (k : String),
    lookupKV k s.transfers = none → lookupKV k (tickN n s).transfers = none
  | 0, _, _, h => h
  | n + 1, s, k, h => tickN_lookup_none n (tick s) k (tick_lookup_none s k h)

/-- A pending removal timer with remaining delay at most the number of
elapsed time-units deletes its transfer id, and nothing re-inserts it while
no further event arrives. -/
theorem timer_kills : ∀ (n : Nat) (s : OrchState) (k : String) (j : Nat),
    (k, j) ∈ s.timers → 1 ≤ j → j ≤ n → lookupKV k (tickN n s).transfers = none
  | 0, _, _, _, _, h1, h2 => by omega
  | n + 1, s, k, j, hmem, h1, h2 => by
      match j, hmem, h1 with
      | 1, hmem, _ =>
        exact tickN_lookup_none n (tick s) k (tick_fires s k hmem)
      | j' + 2, hmem, _ =>
        exact timer_kills n (tick s) k (j' + 1) (tick_timer_dec s k j' hmem) (by omega) (by omega)

/-- Claim C5: a record whose status reaches complete is gone from the live
transfer map 5 time-units after the complete event when no further event for
that transfer id arrives; a complete event bumps the pane refresh token; and
an event for a transfer id not currently in the map (including one arriving
after removal) creates a fresh record rather than erroring. -/
theorem transfer_lifecycle (s : OrchState) (p q : TransferProgress)
    (hp : p.status = "complete") (hq : lookupKV q.transfer_id s.transfers = none) :
    lookupKV p.transfer_id (tickN 5 (recv p s)).transfers = none
    ∧ (recv p s).refreshKey = s.refreshKey + 1
    ∧ lookupKV q.transfer_id (recv q s).transfers = some q := by
  refine ⟨?_, ?_, ?_⟩
  · have hmem : (p.transfer_id, 5) ∈ (recv p s).timers := by
      simp [recv, hp]
    exact timer_kills 5 (recv p s) p.transfer_id 5 hmem (by omega) (by omega)
  · simp [recv, hp]
  · unfold recv
    split <;> simp [lookupKV_upsertKV_self]

/-- Witness for C5: a concrete complete event is removed after 5 ticks, bumps
the refresh key, and a fresh event for an unknown id creates its record. -/
theorem transfer_lifecycle_witness :
    lookupKV "t1" (tickN 5 (recv wP wState)).transfers = none
    ∧ (recv wP wState).refreshKey = wState.refreshKey + 1
    ∧ lookupKV "t2" (recv wQ wState).transfers = some wQ := by
  have h := transfer_lifecycle wState wP wQ rfl rfl
  exact h

end QuickSync
